import Mathlib

/-!
Shallow embedding of `RIPng_Simulator.py`: a RIP-family distance-vector
routing simulator.  Routing tables (Python dicts keyed by destination) are
modelled as association lists with dict semantics: assigning to an existing
key overwrites in place, assigning to a fresh key appends, lookup finds the
first matching key.  Python integers are `Int`.  The `KeyError` that
`simulate_round` can raise when a neighbor is absent from the scheduler's
router map is modelled by returning `Option`.
-/

namespace RIPng

/-- Lookup in a Python-dict-like association list (`d[k]`, returning
`none` where Python would raise `KeyError`). -/
def dictLookup {α : Type} (l : List (String × α)) (k : String) : Option α :=
  match l with
  | [] => none
  | (k', v) :: rest => if k' = k then some v else dictLookup rest k

/-- Assignment `d[k] = v` on a Python-dict-like association list:
overwrite the existing binding in place, else append. -/
def dictInsert {α : Type} (l : List (String × α)) (k : String) (v : α) : List (String × α) :=
  match l with
  | [] => [(k, v)]
  | (k', v') :: rest => if k' = k then (k, v) :: rest else (k', v') :: dictInsert rest k v

/-- `RoutingTableEntry` from the source: destination network, subnet mask,
next hop, metric, aging timeout and optional garbage-collection timer. -/
structure RoutingTableEntry where
  destination : String
  subnet_mask : String
  next_hop : String
  metric : Int
  timeout : Int
  garbage_timer : Option Int
  deriving DecidableEq, Repr

/-- The Python constructor `RoutingTableEntry(destination, subnet_mask,
next_hop, metric, timeout=3)`: `garbage_timer` always starts as `None`. -/
def RoutingTableEntry.make (destination subnet_mask next_hop : String)
    (metric : Int) (timeout : Int) : RoutingTableEntry :=
  ⟨destination, subnet_mask, next_hop, metric, timeout, none⟩

/-- An update as delivered to one router: destination mapped to
`(metric, advertising router id)`. -/
abbrev Update := List (String × Int × String)

/-- `Router`: id, neighbor ids (the source stores neighbor objects but only
ever reads their immutable `router_id`), and the routing table. -/
structure Router where
  router_id : String
  neighbors : List String
  routing_table : List (String × RoutingTableEntry)
  deriving DecidableEq, Repr

/-- `Router.add_direct_connection`: seed a metric-0 entry with `next_hop`
set to the router itself. -/
def Router.add_direct_connection (r : Router) (destination_network subnet_mask : String) :
    Router :=
  let entry := RoutingTableEntry.make destination_network subnet_mask r.router_id 0 3
  { r with routing_table := dictInsert r.routing_table destination_network entry }

/-- `Router.add_neighbor`. -/
def Router.add_neighbor (r : Router) (neighbor_id : String) : Router :=
  { r with neighbors := r.neighbors ++ [neighbor_id] }

/-- The update `send_routing_update` builds for one neighbor: every table
entry except those suppressed by split horizon
(`entry.metric < 16 and entry.next_hop == neighbor.router_id`). -/
def updateForNeighbor (r : Router) (neighbor_id : String) : Update :=
  (r.routing_table.filter
      (fun p => ¬(p.2.metric < 16 ∧ p.2.next_hop = neighbor_id))).map
    (fun p => (p.1, (p.2.metric, r.router_id)))

/-- `Router.send_routing_update`: one update per neighbor, keyed by the
neighbor's id. -/
def Router.send_routing_update (r : Router) : List (String × Update) :=
  r.neighbors.map (fun nid => (nid, updateForNeighbor r nid))

/-- One iteration of the merge loop of `receive_routing_update`, for a
single `(dest, (received_metric, sender_id))` item of the update. -/
def mergeItem (table : List (String × RoutingTableEntry))
    (dest : String) (received_metric : Int) (sender_id : String) :
    List (String × RoutingTableEntry) × Bool :=
  let new_metric := min (received_metric + 1) 16
  match dictLookup table dest with
  | some existing =>
    if existing.next_hop = sender_id then
      (dictInsert table dest
        { existing with
            metric := new_metric
            timeout := 3
            garbage_timer := if new_metric = 16 then some 2 else none },
       true)
    else if new_metric < existing.metric then
      (dictInsert table dest (RoutingTableEntry.make dest "/24" sender_id new_metric 3), true)
    else
      (table, false)
  | none =>
    (dictInsert table dest (RoutingTableEntry.make dest "/24" sender_id new_metric 3), true)

/-- The merge loop folded over the whole update, also accumulating the
`updated` flag. -/
def mergeUpdateList (table : List (String × RoutingTableEntry)) (upd : Update) :
    List (String × RoutingTableEntry) × Bool :=
  upd.foldl
    (fun acc item =>
      let res := mergeItem acc.1 item.1 item.2.1 item.2.2
      (res.1, acc.2 || res.2))
    (table, false)

/-- `Router.receive_routing_update`: merge an incoming update into the
routing table, returning the updated router and the `updated` flag.  The
`from_router` argument is carried but, as in the source, never consulted:
the sender id embedded in each update item is what the merge uses. -/
def Router.receive_routing_update (r : Router) (_from_router : String) (upd : Update) :
    Router × Bool :=
  let res := mergeUpdateList r.routing_table upd
  ({ r with routing_table := res.1 }, res.2)

/-- What one pass of `age_routes` does to a single entry: `none` means the
entry is deleted from the table. -/
def ageEntry (e : RoutingTableEntry) : Option RoutingTableEntry :=
  if e.metric = 0 then
    some e
  else if e.metric < 16 then
    let t := e.timeout - 1
    if t ≤ 0 then
      some { e with timeout := t, metric := 16, garbage_timer := some 2 }
    else
      some { e with timeout := t }
  else
    match e.garbage_timer with
    | some g => if g - 1 ≤ 0 then none else some { e with garbage_timer := some (g - 1) }
    | none => some e

/-- `Router.age_routes`: age every entry, deleting those whose garbage
timer expires. -/
def Router.age_routes (r : Router) : Router :=
  let aged := r.routing_table.filterMap (fun p => (ageEntry p.2).map (fun e => (p.1, e)))
  { r with routing_table := aged }

/-- `NetworkSimulator`: the scheduler's router registry. -/
structure NetworkSimulator where
  routers : List (String × Router)
  deriving DecidableEq, Repr

/-- `NetworkSimulator.add_router`. -/
def NetworkSimulator.add_router (sim : NetworkSimulator) (r : Router) : NetworkSimulator :=
  ⟨dictInsert sim.routers r.router_id r⟩

/-- The snapshot taken at the top of `simulate_round`: every router's
outgoing updates, computed from the state at the start of the round. -/
def snapshotUpdates (sim : NetworkSimulator) : List (String × List (String × Update)) :=
  sim.routers.map (fun p => (p.1, p.2.send_routing_update))

/-- The delivery loop of `simulate_round` for one receiving router: for
each neighbor, look its id up in the snapshot (`all_updates[nid]`, a
`KeyError`, hence `none`, when absent), take the slice addressed to this
router (`.get(router_id, {})`, an empty update when absent) and merge it. -/
def deliverNeighbors (all_updates : List (String × List (String × Update))) :
    List String → Router → Option Router
  | [], r => some r
  | nid :: rest, r =>
    match dictLookup all_updates nid with
    | none => none
    | some nupd =>
      deliverNeighbors all_updates rest
        (r.receive_routing_update nid ((dictLookup nupd r.router_id).getD [])).1

/-- Delivery to one router: merge the snapshot slices from each of its
neighbors, in neighbor-list order. -/
def deliverTo (all_updates : List (String × List (String × Update))) (r : Router) :
    Option Router :=
  deliverNeighbors all_updates r.neighbors r

/-- The delivery phase over every registered router. -/
def deliverAll (all_updates : List (String × List (String × Update))) :
    List (String × Router) → Option (List (String × Router))
  | [] => some []
  | (id, r) :: rest =>
    match deliverTo all_updates r with
    | none => none
    | some r' =>
      match deliverAll all_updates rest with
      | none => none
      | some rest' => some ((id, r') :: rest')

/-- `NetworkSimulator.simulate_round`: snapshot every router's updates,
deliver them, then age every router.  `none` models the `KeyError` raised
when a neighbor id is missing from the router registry. -/
def NetworkSimulator.simulate_round (sim : NetworkSimulator) : Option NetworkSimulator :=
  match deliverAll (snapshotUpdates sim) sim.routers with
  | none => none
  | some routers2 => some ⟨routers2.map (fun p => (p.1, p.2.age_routes))⟩

/-- Apply an operation to the router registered under `rid`, as calling a
method on that router object does in the source. -/
def simOnRouter (sim : NetworkSimulator) (rid : String) (f : Router → Router) :
    NetworkSimulator :=
  ⟨sim.routers.map (fun p => if p.1 = rid then (p.1, f p.2) else p)⟩

/-- Scheduler states reachable through the public operations: registering a
router with an empty table, linking a neighbor, declaring a directly
connected network, merging an arbitrary received update, aging, and running
a full round. -/
inductive Reachable : NetworkSimulator → Prop
  | init : Reachable ⟨[]⟩
  | add_router (sim : NetworkSimulator) (rid : String) (nbrs : List String) :
      Reachable sim → Reachable (sim.add_router ⟨rid, nbrs, []⟩)
  | link (sim : NetworkSimulator) (rid nid : String) :
      Reachable sim → Reachable (simOnRouter sim rid (fun r => r.add_neighbor nid))
  | direct (sim : NetworkSimulator) (rid dest mask : String) :
      Reachable sim →
      Reachable (simOnRouter sim rid (fun r => r.add_direct_connection dest mask))
  | merge (sim : NetworkSimulator) (rid frm : String) (upd : Update) :
      Reachable sim →
      Reachable (simOnRouter sim rid (fun r => (r.receive_routing_update frm upd).1))
  | age (sim : NetworkSimulator) (rid : String) :
      Reachable sim → Reachable (simOnRouter sim rid Router.age_routes)
  | round (sim sim' : NetworkSimulator) :
      Reachable sim → sim.simulate_round = some sim' → Reachable sim'

/-- The direction of the garbage-timer invariant the code does maintain,
for every entry of one table: a set timer implies metric 16. -/
def tableTimerSound (l : List (String × RoutingTableEntry)) : Prop :=
  ∀ p ∈ l, p.2.garbage_timer.isSome → p.2.metric = 16

/-- The garbage-timer direction of the invariant over a whole scheduler
state. -/
def simTimerSound (sim : NetworkSimulator) : Prop :=
  ∀ q ∈ sim.routers, tableTimerSound q.2.routing_table

/-! ### Concrete states used to instantiate the theorems -/

/-- One registered router that receives a poisoned update for a destination
it does not know. -/
def simPoison : NetworkSimulator :=
  simOnRouter (NetworkSimulator.add_router ⟨[]⟩ ⟨"A", [], []⟩) "A"
    (fun r => (r.receive_routing_update "B" [("N", 16, "B")]).1)

/-- simPoison after a second poisoned update for the same destination,
which now runs the same-next-hop branch and sets the garbage timer. -/
def simPoison2 : NetworkSimulator :=
  simOnRouter simPoison "A"
    (fun r => (r.receive_routing_update "B" [("N", 16, "B")]).1)

/-- Two symmetrically linked routers, `A` owning a direct network. -/
def simTwo : NetworkSimulator :=
  ⟨[("A", ⟨"A", ["B"], [("10", ⟨"10", "/24", "A", 0, 3, none⟩)]⟩),
    ("B", ⟨"B", ["A"], []⟩)]⟩

/-- A scheduler whose only router references a neighbor id that is missing
from the router registry. -/
def simMissing : NetworkSimulator :=
  ⟨[("A", ⟨"A", ["Z"], [("N", ⟨"N", "/24", "A", 0, 3, none⟩)]⟩)]⟩

/-- A router holding a poisoned route to `N` through `B`, used to
instantiate the merge theorems. -/
def rRevive : Router :=
  ⟨"A", [], [("N", ⟨"N", "/24", "B", 16, 3, some 2⟩)]⟩

/-- The poisoned entry rRevive holds for destination `N`. -/
def eRevive : RoutingTableEntry := ⟨"N", "/24", "B", 16, 3, some 2⟩

/-- A router advertising one finite route learned through `B` and one
poisoned route, used to instantiate the split-horizon theorem. -/
def rSend : Router :=
  ⟨"A", ["B", "C"], [("N", ⟨"N", "/24", "B", 2, 3, none⟩),
                     ("P", ⟨"P", "/24", "B", 16, 3, some 2⟩)]⟩

/-- A router with a direct route, an expiring active route and an expiring
poisoned route, used to instantiate the aging theorem. -/
def rAging : Router :=
  ⟨"A", [], [("M", ⟨"M", "/24", "A", 0, 3, none⟩),
             ("N", ⟨"N", "/24", "B", 2, 1, none⟩),
             ("K", ⟨"K", "/24", "B", 16, 3, some 1⟩)]⟩

/-! ### Basic dictionary lemmas -/

theorem dictLookup_dictInsert_self {α : Type} (l : List (String × α)) (k : String) (v : α) :
    dictLookup (dictInsert l k v) k = some v := by
  induction l with
  | nil => simp [dictInsert, dictLookup]
  | cons p rest ih =>
    by_cases h : p.1 = k
    · simp [dictInsert, dictLookup, h]
    · simp [dictInsert, dictLookup, h, ih]

theorem receive_single (r : Router) (frm dest s : String) (m : Int) :
    r.receive_routing_update frm [(dest, m, s)] =
      ({ r with routing_table := (mergeItem r.routing_table dest m s).1 },
       (mergeItem r.routing_table dest m s).2) := by
  simp [Router.receive_routing_update, mergeUpdateList]

/-! ### Claim theorems: the three merge branches -/

/-- Claim C4: merging `(dest, m)` advertised by sender `s` into a table whose
existing entry for `dest` already has `next_hop = s` unconditionally adopts
`candidateMetric = min (m+1) 16`, resets the timeout to 3, sets the garbage
timer to 2 exactly when the candidate metric is 16 and clears it otherwise,
and reports a change. -/
theorem merge_same_next_hop (r : Router) (frm dest s : String) (m : Int)
    (e : RoutingTableEntry)
    (hlook : dictLookup r.routing_table dest = some e)
    (hnh : e.next_hop = s) :
    r.receive_routing_update frm [(dest, m, s)] =
      ({ r with routing_table := (dictInsert r.routing_table dest
          { e with
              metric := min (m + 1) 16
              timeout := 3
              garbage_timer := if min (m + 1) 16 = 16 then some 2 else none }) },
       true) := by
  rw [receive_single]
  simp [mergeItem, hlook, hnh]

/-- Claim C5: merging `(dest, m)` advertised by sender `s` into a table whose
existing entry for `dest` has a different next hop replaces the entry with a
fresh one (next hop `s`, metric `min (m+1) 16`, timeout 3, no garbage timer)
exactly when the candidate metric is strictly smaller than the existing
metric, and otherwise (ties included) leaves the router unchanged and
reports no change. -/
theorem merge_other_next_hop (r : Router) (frm dest s : String) (m : Int)
    (e : RoutingTableEntry)
    (hlook : dictLookup r.routing_table dest = some e)
    (hnh : e.next_hop ≠ s) :
    (min (m + 1) 16 < e.metric →
      r.receive_routing_update frm [(dest, m, s)] =
        ({ r with routing_table := (dictInsert r.routing_table dest
            (RoutingTableEntry.make dest "/24" s (min (m + 1) 16) 3)) }, true)) ∧
    (¬ min (m + 1) 16 < e.metric →
      r.receive_routing_update frm [(dest, m, s)] = (r, false)) := by
  constructor
  · intro hlt
    rw [receive_single]
    simp [mergeItem, hlook, hnh, hlt]
  · intro hge
    rw [receive_single]
    simp [mergeItem, hlook, hnh, hge]

/-- Claim C6: merging `(dest, m)` advertised by sender `s` into a router with
no table entry for `dest` creates a new entry with metric `min (m+1) 16`,
next hop `s` and a fresh timeout of 3, and reports a change. -/
theorem merge_unknown_destination (r : Router) (frm dest s : String) (m : Int)
    (hlook : dictLookup r.routing_table dest = none) :
    r.receive_routing_update frm [(dest, m, s)] =
      ({ r with routing_table := (dictInsert r.routing_table dest
          (RoutingTableEntry.make dest "/24" s (min (m + 1) 16) 3)) }, true) := by
  rw [receive_single]
  simp [mergeItem, hlook]


theorem merge_same_next_hop_witness :
    (dictLookup rRevive.routing_table "N" = some eRevive ∧ eRevive.next_hop = "B") ∧
    rRevive.receive_routing_update "B" [("N", 3, "B")] =
      ({ rRevive with routing_table := (dictInsert rRevive.routing_table "N"
          { eRevive with
              metric := min (3 + 1) 16
              timeout := 3
              garbage_timer := if min (3 + 1) 16 = (16 : Int) then some 2 else none }) },
       true) :=
  ⟨⟨rfl, rfl⟩, merge_same_next_hop rRevive "B" "N" "B" 3 eRevive rfl rfl⟩

theorem merge_other_next_hop_witness :
    (dictLookup rRevive.routing_table "N" = some eRevive ∧ eRevive.next_hop ≠ "C") ∧
    ((min ((3 : Int) + 1) 16 < eRevive.metric →
      rRevive.receive_routing_update "B" [("N", 3, "C")] =
        ({ rRevive with routing_table := (dictInsert rRevive.routing_table "N"
            (RoutingTableEntry.make "N" "/24" "C" (min (3 + 1) 16) 3)) }, true)) ∧
     (¬ min ((3 : Int) + 1) 16 < eRevive.metric →
      rRevive.receive_routing_update "B" [("N", 3, "C")] = (rRevive, false))) :=
  ⟨⟨rfl, by decide⟩, merge_other_next_hop rRevive "B" "N" "C" 3 eRevive rfl (by decide)⟩

theorem merge_unknown_destination_witness :
    dictLookup (Router.routing_table ⟨"A", [], []⟩) "N" = none ∧
    Router.receive_routing_update ⟨"A", [], []⟩ "B" [("N", 7, "B")] =
      ({ Router.mk "A" [] [] with routing_table := (dictInsert [] "N"
          (RoutingTableEntry.make "N" "/24" "B" (min (7 + 1) 16) 3)) }, true) :=
  ⟨rfl, merge_unknown_destination ⟨"A", [], []⟩ "B" "N" "B" 7 rfl⟩

/-! ### Claim C10: learned routes always store the mask "/24" -/

/-- Claim C10: every entry created by `receive_routing_update` — whether for
a previously unknown destination or as a strictly better path replacing an
entry with a different next hop — stores the subnet mask `"/24"`,
independent of whatever mask the destination was declared with elsewhere;
the update items carry only a metric and an advertiser, no mask. -/
theorem learned_mask_constant (r : Router) (frm dest s : String) (m : Int) :
    (dictLookup r.routing_table dest = none →
      ∃ e', dictLookup ((r.receive_routing_update frm [(dest, m, s)]).1.routing_table) dest
          = some e' ∧ e'.subnet_mask = "/24") ∧
    (∀ e, dictLookup r.routing_table dest = some e → e.next_hop ≠ s →
      min (m + 1) 16 < e.metric →
      ∃ e', dictLookup ((r.receive_routing_update frm [(dest, m, s)]).1.routing_table) dest
          = some e' ∧ e'.subnet_mask = "/24") := by
  constructor
  · intro hnone
    refine ⟨RoutingTableEntry.make dest "/24" s (min (m + 1) 16) 3, ?_, rfl⟩
    rw [receive_single]
    simp [mergeItem, hnone, dictLookup_dictInsert_self]
  · intro e hlook hnh hlt
    refine ⟨RoutingTableEntry.make dest "/24" s (min (m + 1) 16) 3, ?_, rfl⟩
    rw [receive_single]
    simp [mergeItem, hlook, hnh, hlt, dictLookup_dictInsert_self]

theorem learned_mask_constant_witness :
    (dictLookup (Router.routing_table ⟨"A", [], []⟩) "N" = none →
      ∃ e', dictLookup ((Router.receive_routing_update ⟨"A", [], []⟩ "B"
          [("N", (7 : Int), "B")]).1.routing_table) "N" = some e' ∧
        e'.subnet_mask = "/24") ∧
    (∀ e, dictLookup (Router.routing_table ⟨"A", [], []⟩) "N" = some e →
      e.next_hop ≠ "B" → min ((7 : Int) + 1) 16 < e.metric →
      ∃ e', dictLookup ((Router.receive_routing_update ⟨"A", [], []⟩ "B"
          [("N", (7 : Int), "B")]).1.routing_table) "N" = some e' ∧
        e'.subnet_mask = "/24") :=
  learned_mask_constant ⟨"A", [], []⟩ "B" "N" "B" 7

/-! ### Claim C2: metric clamping is one-sided -/

/-- Claim C2 counterexample: a received metric of `-5` is not treated as 16;
the merge result differs from merging the same update with metric 16, and it
creates an entry whose stored metric is negative. -/
theorem negative_metric_not_clamped :
    (Router.receive_routing_update ⟨"A", [], []⟩ "B" [("N", -5, "B")] ≠
      Router.receive_routing_update ⟨"A", [], []⟩ "B" [("N", 16, "B")]) ∧
    ∃ e, dictLookup ((Router.receive_routing_update ⟨"A", [], []⟩ "B"
        [("N", -5, "B")]).1.routing_table) "N" = some e ∧ e.metric < 0 :=
  ⟨by decide, ⟨⟨"N", "/24", "B", -4, 3, none⟩, by decide, by decide⟩⟩

/-- Claim C2 (amended): a received metric strictly above 16 is merged
exactly as the value 16 would be (the candidate metric is clamped to 16 by
`min`), and the update item is processed rather than rejected; metrics below
0 receive no such treatment. -/
theorem metric_above_sixteen_clamped (r : Router) (frm dest s : String) (m : Int)
    (h : 16 < m) :
    r.receive_routing_update frm [(dest, m, s)] =
      r.receive_routing_update frm [(dest, 16, s)] := by
  rw [receive_single, receive_single]
  have hm : min (m + 1) 16 = (16 : Int) := by omega
  have h16 : min ((16 : Int) + 1) 16 = (16 : Int) := by norm_num
  simp [mergeItem, hm, h16]

theorem metric_above_sixteen_clamped_witness :
    (16 : Int) < 99 ∧
    Router.receive_routing_update ⟨"A", [], []⟩ "B" [("N", 99, "B")] =
      Router.receive_routing_update ⟨"A", [], []⟩ "B" [("N", 16, "B")] :=
  ⟨by decide, metric_above_sixteen_clamped ⟨"A", [], []⟩ "B" "N" "B" 99 (by decide)⟩

/-! ### Claim C3: split horizon -/

theorem dictLookup_map_self {α : Type} (f : String → α) :
    ∀ (l : List String) (k : String), k ∈ l →
      dictLookup (l.map fun n => (n, f n)) k = some (f k) := by
  intro l
  induction l with
  | nil => intro k hk; cases hk
  | cons a rest ih =>
    intro k hk
    by_cases h : a = k
    · subst h; simp [dictLookup]
    · rcases List.mem_cons.mp hk with h' | h'
      · exact absurd h'.symm h
      · simp [dictLookup, h, ih k h']

theorem dictLookup_nil {α : Type} (k : String) :
    dictLookup ([] : List (String × α)) k = none := rfl

theorem dictLookup_cons {α : Type} (k' : String) (v : α) (rest : List (String × α))
    (k : String) :
    dictLookup ((k', v) :: rest) k = if k' = k then some v else dictLookup rest k := rfl

theorem dictLookup_pair_cons {α : Type} (p : String × α) (rest : List (String × α))
    (k : String) :
    dictLookup (p :: rest) k = if p.1 = k then some p.2 else dictLookup rest k := by
  cases p
  rfl

theorem dictLookup_update_absent (rid nid dest : String) :
    ∀ (l : List (String × RoutingTableEntry)), dest ∉ l.map Prod.fst →
      dictLookup ((l.filter fun p => ¬(p.2.metric < 16 ∧ p.2.next_hop = nid)).map
          fun p => (p.1, (p.2.metric, rid))) dest = none := by
  intro l
  induction l with
  | nil => intro _; rfl
  | cons p rest ih =>
    intro habs
    have hk : p.1 ≠ dest := fun h => habs (by simp [h])
    have hrest : dest ∉ rest.map Prod.fst := fun h => habs (by simp [h])
    rw [List.filter_cons]
    split
    · rw [List.map_cons, dictLookup_cons]
      rw [if_neg hk]
      exact ih hrest
    · exact ih hrest

theorem dictLookup_update_entry (rid nid dest : String) (e : RoutingTableEntry) :
    ∀ (l : List (String × RoutingTableEntry)), (l.map Prod.fst).Nodup →
      dictLookup l dest = some e →
      dictLookup ((l.filter fun p => ¬(p.2.metric < 16 ∧ p.2.next_hop = nid)).map
          fun p => (p.1, (p.2.metric, rid))) dest =
        (if e.metric < 16 ∧ e.next_hop = nid then none else some (e.metric, rid)) := by
  intro l
  induction l with
  | nil => intro _ h; cases h
  | cons p rest ih =>
    intro hnd hlook
    rw [List.map_cons, List.nodup_cons] at hnd
    rw [dictLookup_pair_cons] at hlook
    by_cases hk : p.1 = dest
    · rw [if_pos hk] at hlook
      have he : p.2 = e := Option.some.inj hlook
      have habs : dest ∉ rest.map Prod.fst := hk ▸ hnd.1
      rw [List.filter_cons]
      split
      · rename_i hcond
        rw [decide_eq_true_eq] at hcond
        rw [List.map_cons, dictLookup_cons, if_pos hk, he, if_neg (he ▸ hcond)]
      · rename_i hcond
        rw [decide_eq_true_eq, not_not] at hcond
        rw [if_pos (he ▸ hcond)]
        exact dictLookup_update_absent rid nid dest rest habs
    · rw [if_neg hk] at hlook
      rw [List.filter_cons]
      split
      · rw [List.map_cons, dictLookup_cons, if_neg hk]
        exact ih hnd.2 hlook
      · exact ih hnd.2 hlook

/-- Claim C3: provided table keys are unique (which dict semantics
guarantee), the update `send_routing_update` builds for a neighbor `nid`
contains a table entry's destination — advertised as the entry's metric
together with this router's id — if and only if the entry is not suppressed
by split horizon, i.e. unless its metric is below 16 and its next hop is
`nid`; in particular poisoned (metric 16) entries are always included. -/
theorem split_horizon_membership (r : Router) (nid dest : String)
    (e : RoutingTableEntry)
    (hmem : nid ∈ r.neighbors)
    (hnd : (r.routing_table.map Prod.fst).Nodup)
    (he : dictLookup r.routing_table dest = some e) :
    ∃ u, dictLookup r.send_routing_update nid = some u ∧
      dictLookup u dest =
        (if e.metric < 16 ∧ e.next_hop = nid then none
         else some (e.metric, r.router_id)) := by
  refine ⟨updateForNeighbor r nid, ?_, ?_⟩
  · unfold Router.send_routing_update
    exact dictLookup_map_self _ _ _ hmem
  · unfold updateForNeighbor
    exact dictLookup_update_entry r.router_id nid dest e r.routing_table hnd he


theorem split_horizon_membership_witness :
    ("B" ∈ rSend.neighbors ∧ (rSend.routing_table.map Prod.fst).Nodup ∧
      dictLookup rSend.routing_table "N" = some ⟨"N", "/24", "B", 2, 3, none⟩) ∧
    ∃ u, dictLookup rSend.send_routing_update "B" = some u ∧
      dictLookup u "N" =
        (if (2 : Int) < 16 ∧ "B" = "B" then none else some ((2 : Int), "A")) :=
  ⟨⟨by decide, by decide, rfl⟩,
   split_horizon_membership rSend "B" "N" ⟨"N", "/24", "B", 2, 3, none⟩
     (by decide) (by decide) rfl⟩

/-! ### Claim C7: aging and garbage collection -/

theorem dictLookup_age_absent (dest : String) :
    ∀ (l : List (String × RoutingTableEntry)), dest ∉ l.map Prod.fst →
      dictLookup (l.filterMap fun p => (ageEntry p.2).map fun x => (p.1, x)) dest = none := by
  intro l
  induction l with
  | nil => intro _; rfl
  | cons p rest ih =>
    intro habs
    have hk : p.1 ≠ dest := fun h => habs (by simp [h])
    have hrest : dest ∉ rest.map Prod.fst := fun h => habs (by simp [h])
    cases hage : ageEntry p.2 with
    | none => simpa [List.filterMap_cons, hage] using ih hrest
    | some x =>
      rw [List.filterMap_cons, hage]
      simp only [Option.map_some']
      rw [dictLookup_cons, if_neg hk]
      exact ih hrest

theorem dictLookup_age (dest : String) (e : RoutingTableEntry) :
    ∀ (l : List (String × RoutingTableEntry)), (l.map Prod.fst).Nodup →
      dictLookup l dest = some e →
      dictLookup (l.filterMap fun p => (ageEntry p.2).map fun x => (p.1, x)) dest
        = ageEntry e := by
  intro l
  induction l with
  | nil => intro _ h; cases h
  | cons p rest ih =>
    intro hnd hlook
    rw [List.map_cons, List.nodup_cons] at hnd
    rw [dictLookup_pair_cons] at hlook
    by_cases hk : p.1 = dest
    · rw [if_pos hk] at hlook
      have he : p.2 = e := Option.some.inj hlook
      have habs : dest ∉ rest.map Prod.fst := hk ▸ hnd.1
      cases hage : ageEntry p.2 with
      | none =>
        rw [List.filterMap_cons, hage]
        rw [he] at hage
        rw [hage]
        exact dictLookup_age_absent dest rest habs
      | some x =>
        rw [List.filterMap_cons, hage]
        rw [he] at hage
        rw [hage]
        simp only [Option.map_some']
        rw [dictLookup_cons, if_pos hk]
    · rw [if_neg hk] at hlook
      cases hage : ageEntry p.2 with
      | none => simpa [List.filterMap_cons, hage] using ih hnd.2 hlook
      | some x =>
        rw [List.filterMap_cons, hage]
        simp only [Option.map_some']
        rw [dictLookup_cons, if_neg hk]
        exact ih hnd.2 hlook

theorem age_keys_sublist :
    ∀ (l : List (String × RoutingTableEntry)),
      ((l.filterMap fun p => (ageEntry p.2).map fun x => (p.1, x)).map Prod.fst).Sublist
        (l.map Prod.fst) := by
  intro l
  induction l with
  | nil => exact List.Sublist.slnil
  | cons p rest ih =>
    cases hage : ageEntry p.2 with
    | none =>
      rw [List.filterMap_cons, hage, List.map_cons]
      exact ih.cons p.1
    | some x =>
      rw [List.filterMap_cons, hage]
      simp only [Option.map_some, List.map_cons]
      exact ih.cons₂ p.1

theorem age_routes_table (r : Router) :
    r.age_routes.routing_table =
      r.routing_table.filterMap fun p => (ageEntry p.2).map fun x => (p.1, x) := rfl

/-- Claim C7: one pass of `age_routes` leaves a metric-0 entry untouched (as
does any number of passes), decrements the timeout of an entry with metric
strictly between 0 and 16 — forcing the metric to 16 and starting a garbage
timer of 2 when the decremented timeout reaches 0 — and decrements the
garbage timer of a metric-16 entry, deleting the entry once the decremented
timer reaches 0. -/
theorem age_routes_cases (r : Router) (dest : String) (e : RoutingTableEntry)
    (hnd : (r.routing_table.map Prod.fst).Nodup)
    (he : dictLookup r.routing_table dest = some e) :
    (e.metric = 0 →
      ∀ n : Nat, dictLookup ((Router.age_routes)^[n] r).routing_table dest = some e) ∧
    (0 < e.metric → e.metric < 16 →
      dictLookup r.age_routes.routing_table dest =
        some (if e.timeout - 1 ≤ 0
              then { e with timeout := e.timeout - 1, metric := 16, garbage_timer := some 2 }
              else { e with timeout := e.timeout - 1 })) ∧
    (∀ g, e.metric = 16 → e.garbage_timer = some g →
      dictLookup r.age_routes.routing_table dest =
        (if g - 1 ≤ 0 then none else some { e with garbage_timer := some (g - 1) })) := by
  refine ⟨?_, ?_, ?_⟩
  · intro h0
    have key : ∀ (n : Nat) (r' : Router), (r'.routing_table.map Prod.fst).Nodup →
        dictLookup r'.routing_table dest = some e →
        dictLookup ((Router.age_routes)^[n] r').routing_table dest = some e := by
      intro n
      induction n with
      | zero => intro r' _ hl; simpa using hl
      | succ n ih =>
        intro r' hnd' hl
        rw [Function.iterate_succ_apply]
        apply ih
        · rw [age_routes_table]
          exact (age_keys_sublist r'.routing_table).nodup hnd'
        · rw [age_routes_table, dictLookup_age dest e r'.routing_table hnd' hl]
          simp [ageEntry, h0]
    exact fun n => key n r hnd he
  · intro hpos hlt
    rw [age_routes_table, dictLookup_age dest e r.routing_table hnd he]
    have h0 : ¬ e.metric = 0 := by omega
    simp only [ageEntry, h0, if_false, hlt, if_true]
    split <;> rfl
  · intro g h16 hg
    rw [age_routes_table, dictLookup_age dest e r.routing_table hnd he]
    have h0 : ¬ e.metric = 0 := by omega
    have hlt : ¬ e.metric < 16 := by omega
    simp only [ageEntry, h0, if_false, hlt, hg]


theorem age_routes_cases_witness :
    ((rAging.routing_table.map Prod.fst).Nodup ∧
      dictLookup rAging.routing_table "N" = some ⟨"N", "/24", "B", 2, 1, none⟩) ∧
    (((2 : Int) = 0 →
      ∀ n : Nat, dictLookup ((Router.age_routes)^[n] rAging).routing_table "N" =
        some ⟨"N", "/24", "B", 2, 1, none⟩) ∧
     ((0 : Int) < 2 → (2 : Int) < 16 →
      dictLookup rAging.age_routes.routing_table "N" =
        some (if (1 : Int) - 1 ≤ 0
              then { RoutingTableEntry.mk "N" "/24" "B" 2 1 none with
                       timeout := 1 - 1, metric := 16, garbage_timer := some 2 }
              else { RoutingTableEntry.mk "N" "/24" "B" 2 1 none with timeout := 1 - 1 })) ∧
     (∀ g : Int, (2 : Int) = 16 →
      (none : Option Int) = some g →
      dictLookup rAging.age_routes.routing_table "N" =
        (if g - 1 ≤ 0 then none
         else some { RoutingTableEntry.mk "N" "/24" "B" 2 1 none with
                       garbage_timer := some (g - 1) }))) :=
  ⟨⟨by decide, rfl⟩,
   age_routes_cases rAging "N" ⟨"N", "/24", "B", 2, 1, none⟩ (by decide) rfl⟩

/-! ### Claim C8: round ordering (snapshot, deliver, age) -/

theorem dictLookup_map_value {α β : Type} (f : α → β) :
    ∀ (l : List (String × α)) (k : String),
      dictLookup (l.map fun p => (p.1, f p.2)) k = (dictLookup l k).map f := by
  intro l
  induction l with
  | nil => intro k; rfl
  | cons p rest ih =>
    intro k
    rw [List.map_cons, dictLookup_pair_cons, dictLookup_pair_cons]
    by_cases hk : p.1 = k
    · simp [hk]
    · simp [hk, ih]

theorem deliverAll_cons (au : List (String × List (String × Update)))
    (id : String) (r : Router) (rest : List (String × Router)) :
    deliverAll au ((id, r) :: rest) =
      (match deliverTo au r with
       | none => none
       | some r' =>
         match deliverAll au rest with
         | none => none
         | some rest' => some ((id, r') :: rest')) := rfl

theorem deliverAll_lookup (au : List (String × List (String × Update))) :
    ∀ (l l' : List (String × Router)) (k : String) (r : Router),
      deliverAll au l = some l' → dictLookup l k = some r →
      ∃ r2, deliverTo au r = some r2 ∧ dictLookup l' k = some r2 := by
  intro l
  induction l with
  | nil => intro l' k r _ hl; cases hl
  | cons p rest ih =>
    intro l' k r hall hl
    obtain ⟨id, rh⟩ := p
    rw [deliverAll_cons] at hall
    cases hd : deliverTo au rh with
    | none => rw [hd] at hall; cases hall
    | some rh' =>
      rw [hd] at hall
      cases hrest : deliverAll au rest with
      | none => rw [hrest] at hall; cases hall
      | some rest' =>
        rw [hrest] at hall
        cases Option.some.inj hall
        rw [dictLookup_cons] at hl
        by_cases hk : id = k
        · rw [if_pos hk] at hl
          cases Option.some.inj hl
          exact ⟨rh', hd, by rw [dictLookup_cons, if_pos hk]⟩
        · rw [if_neg hk] at hl
          obtain ⟨r2, h1, h2⟩ := ih rest' k r hrest hl
          exact ⟨r2, h1, by rw [dictLookup_cons, if_neg hk]; exact h2⟩

/-- Claim C8: when a round completes, each registered router's final state
is obtained by delivering to it exactly the slices of `snapshotUpdates` —
the per-neighbor updates every router produced from the state at the start
of the round, before any merge — and aging it only after that delivery;
moreover the snapshot entry of any registered router is precisely its
`send_routing_update` on its start-of-round state. -/
theorem simulate_round_snapshot_order (sim sim' : NetworkSimulator) (k : String)
    (r : Router)
    (hround : sim.simulate_round = some sim')
    (hr : dictLookup sim.routers k = some r) :
    (∀ nid nbr, dictLookup sim.routers nid = some nbr →
      dictLookup (snapshotUpdates sim) nid = some nbr.send_routing_update) ∧
    ∃ r2, deliverTo (snapshotUpdates sim) r = some r2 ∧
      dictLookup sim'.routers k = some r2.age_routes := by
  constructor
  · intro nid nbr hnbr
    unfold snapshotUpdates
    rw [dictLookup_map_value, hnbr]
    rfl
  · unfold NetworkSimulator.simulate_round at hround
    cases hda : deliverAll (snapshotUpdates sim) sim.routers with
    | none => rw [hda] at hround; cases hround
    | some routers2 =>
      rw [hda] at hround
      cases Option.some.inj hround
      obtain ⟨r2, hdt, hl2⟩ := deliverAll_lookup _ _ _ _ _ hda hr
      refine ⟨r2, hdt, ?_⟩
      show dictLookup (routers2.map fun p => (p.1, p.2.age_routes)) k = some r2.age_routes
      rw [dictLookup_map_value Router.age_routes routers2 k, hl2]
      rfl

theorem simulate_round_snapshot_order_witness :
    (simTwo.simulate_round =
      some ⟨[("A", ⟨"A", ["B"], [("10", ⟨"10", "/24", "A", 0, 3, none⟩)]⟩),
             ("B", ⟨"B", ["A"], [("10", ⟨"10", "/24", "A", 1, 2, none⟩)]⟩)]⟩ ∧
     dictLookup simTwo.routers "B" = some ⟨"B", ["A"], []⟩) ∧
    ((∀ nid nbr, dictLookup simTwo.routers nid = some nbr →
        dictLookup (snapshotUpdates simTwo) nid = some nbr.send_routing_update) ∧
     ∃ r2, deliverTo (snapshotUpdates simTwo) ⟨"B", ["A"], []⟩ = some r2 ∧
       dictLookup
         (NetworkSimulator.routers
           ⟨[("A", ⟨"A", ["B"], [("10", ⟨"10", "/24", "A", 0, 3, none⟩)]⟩),
             ("B", ⟨"B", ["A"], [("10", ⟨"10", "/24", "A", 1, 2, none⟩)]⟩)]⟩) "B" =
         some r2.age_routes) :=
  ⟨⟨by decide, rfl⟩,
   simulate_round_snapshot_order simTwo
     ⟨[("A", ⟨"A", ["B"], [("10", ⟨"10", "/24", "A", 0, 3, none⟩)]⟩),
       ("B", ⟨"B", ["A"], [("10", ⟨"10", "/24", "A", 1, 2, none⟩)]⟩)]⟩
     "B" ⟨"B", ["A"], []⟩ (by decide) rfl⟩

/-! ### Claim C9: missing neighbors fault the round -/

/-- Claim C9 counterexample: a router whose neighbor list references the
unregistered id `Z` does not complete the round as if an empty update were
delivered; the round fails (the `KeyError` of `all_updates[nid]`). -/
theorem missing_neighbor_faults : simMissing.simulate_round = none := rfl

theorem deliverNeighbors_isSome (au : List (String × List (String × Update))) :
    ∀ (ns : List String) (r : Router),
      (deliverNeighbors au ns r).isSome ↔ ∀ nid ∈ ns, (dictLookup au nid).isSome := by
  intro ns
  induction ns with
  | nil => intro r; simp [deliverNeighbors]
  | cons nid rest ih =>
    intro r
    cases h : dictLookup au nid with
    | none =>
      simp only [deliverNeighbors, h, Option.isSome_none, Bool.false_eq_true, false_iff]
      intro hall
      have hmem := hall nid (List.mem_cons_self nid rest)
      rw [h] at hmem
      simp at hmem
    | some nupd =>
      simp only [deliverNeighbors, h]
      rw [ih]
      constructor
      · intro hrest nid' hmem
        rcases List.mem_cons.mp hmem with he | hm
        · rw [he, h]; rfl
        · exact hrest nid' hm
      · intro hall nid' hmem
        exact hall nid' (List.mem_cons_of_mem _ hmem)

theorem deliverAll_isSome (au : List (String × List (String × Update))) :
    ∀ (l : List (String × Router)),
      (deliverAll au l).isSome ↔ ∀ p ∈ l, (deliverTo au p.2).isSome := by
  intro l
  induction l with
  | nil => simp [deliverAll]
  | cons p rest ih =>
    obtain ⟨id, rh⟩ := p
    rw [deliverAll_cons]
    cases hd : deliverTo au rh with
    | none =>
      simp only [hd, Option.isSome_none, Bool.false_eq_true, false_iff]
      intro hall
      have := hall (id, rh) (List.mem_cons_self _ _)
      rw [hd] at this
      simp at this
    | some rh' =>
      cases hrest : deliverAll au rest with
      | none =>
        simp only [hd, hrest, Option.isSome_none, Bool.false_eq_true, false_iff]
        intro hall
        have : ∀ p ∈ rest, (deliverTo au p.2).isSome :=
          fun p hp => hall p (List.mem_cons_of_mem _ hp)
        rw [← ih, hrest] at this
        simp at this
      | some rest' =>
        simp only [hd, hrest, Option.isSome_some, true_iff]
        intro p hp
        rcases List.mem_cons.mp hp with he | hm
        · rw [he]
          show (deliverTo au rh).isSome
          rw [hd]
          rfl
        · exact (ih.mp (by rw [hrest]; rfl)) p hm

theorem snapshot_lookup_isSome (sim : NetworkSimulator) (nid : String) :
    (dictLookup (snapshotUpdates sim) nid).isSome =
      (dictLookup sim.routers nid).isSome := by
  unfold snapshotUpdates
  rw [dictLookup_map_value]
  cases dictLookup sim.routers nid <;> rfl

/-- Claim C9 (amended): a round completes exactly when every id on every
registered router's neighbor list resolves in the router registry; a
registered neighbor whose prepared updates hold no slice for the receiver
delivers as the empty update (the `.get(..., default empty)` in the source),
but an unregistered neighbor id faults the round instead of acting as an
empty update. -/
theorem simulate_round_neighbor_resolution (sim : NetworkSimulator) :
    (sim.simulate_round).isSome ↔
      ∀ p ∈ sim.routers, ∀ nid ∈ p.2.neighbors,
        (dictLookup sim.routers nid).isSome := by
  have h1 : (sim.simulate_round).isSome
      = (deliverAll (snapshotUpdates sim) sim.routers).isSome := by
    unfold NetworkSimulator.simulate_round
    cases deliverAll (snapshotUpdates sim) sim.routers <;> rfl
  rw [h1, deliverAll_isSome]
  constructor
  · intro hall p hp nid hn
    rw [← snapshot_lookup_isSome]
    exact (deliverNeighbors_isSome (snapshotUpdates sim) p.2.neighbors p.2).mp
      (hall p hp) nid hn
  · intro hall p hp
    show (deliverNeighbors (snapshotUpdates sim) p.2.neighbors p.2).isSome
    rw [deliverNeighbors_isSome]
    intro nid hn
    rw [snapshot_lookup_isSome]
    exact hall p hp nid hn

/-! ### Claim C1: the garbage-timer/metric-16 invariant -/

theorem mem_dictInsert {α : Type} :
    ∀ (l : List (String × α)) (k : String) (v : α) (p : String × α),
      p ∈ dictInsert l k v → p = (k, v) ∨ p ∈ l := by
  intro l
  induction l with
  | nil =>
    intro k v p hp
    simp only [dictInsert, List.mem_singleton] at hp
    exact Or.inl hp
  | cons q rest ih =>
    intro k v p hp
    obtain ⟨qk, qv⟩ := q
    simp only [dictInsert] at hp
    by_cases hk : qk = k
    · rw [if_pos hk] at hp
      rcases List.mem_cons.mp hp with he | hm
      · exact Or.inl he
      · exact Or.inr (List.mem_cons_of_mem _ hm)
    · rw [if_neg hk] at hp
      rcases List.mem_cons.mp hp with he | hm
      · exact Or.inr (he ▸ List.mem_cons_self _ _)
      · rcases ih k v p hm with h1 | h2
        · exact Or.inl h1
        · exact Or.inr (List.mem_cons_of_mem _ h2)

theorem tableTimerSound_insert (l : List (String × RoutingTableEntry)) (k : String)
    (v : RoutingTableEntry) (hl : tableTimerSound l)
    (hv : v.garbage_timer.isSome → v.metric = 16) :
    tableTimerSound (dictInsert l k v) := by
  intro p hp
  rcases mem_dictInsert l k v p hp with he | hm
  · rw [he]; exact hv
  · exact hl p hm

theorem mergeItem_timerSound (t : List (String × RoutingTableEntry)) (dest : String)
    (m : Int) (s : String) (ht : tableTimerSound t) :
    tableTimerSound (mergeItem t dest m s).1 := by
  unfold mergeItem
  cases hl : dictLookup t dest with
  | none =>
    apply tableTimerSound_insert _ _ _ ht
    intro hs
    simp [RoutingTableEntry.make] at hs
  | some existing =>
    by_cases hnh : existing.next_hop = s
    · simp only [if_pos hnh]
      apply tableTimerSound_insert _ _ _ ht
      intro hs
      by_cases h16 : min (m + 1) 16 = (16 : Int)
      · exact h16
      · simp only [if_neg h16] at hs
        simp at hs
    · by_cases hlt : min (m + 1) 16 < existing.metric
      · simp only [if_neg hnh, if_pos hlt]
        apply tableTimerSound_insert _ _ _ ht
        intro hs
        simp [RoutingTableEntry.make] at hs
      · simp only [if_neg hnh, if_neg hlt]
        exact ht

theorem mergeFold_timerSound :
    ∀ (upd : Update) (acc : List (String × RoutingTableEntry) × Bool),
      tableTimerSound acc.1 →
      tableTimerSound (upd.foldl
        (fun acc item =>
          let res := mergeItem acc.1 item.1 item.2.1 item.2.2
          (res.1, acc.2 || res.2)) acc).1 := by
  intro upd
  induction upd with
  | nil => intro acc h; exact h
  | cons item rest ih =>
    intro acc h
    rw [List.foldl_cons]
    exact ih _ (mergeItem_timerSound _ _ _ _ h)

theorem receive_timerSound (r : Router) (frm : String) (upd : Update)
    (h : tableTimerSound r.routing_table) :
    tableTimerSound ((r.receive_routing_update frm upd).1).routing_table := by
  unfold Router.receive_routing_update mergeUpdateList
  exact mergeFold_timerSound upd (r.routing_table, false) h

theorem ageEntry_timerSound (e e' : RoutingTableEntry)
    (h : e.garbage_timer.isSome → e.metric = 16)
    (hage : ageEntry e = some e') :
    e'.garbage_timer.isSome → e'.metric = 16 := by
  unfold ageEntry at hage
  by_cases h0 : e.metric = 0
  · rw [if_pos h0] at hage
    cases Option.some.inj hage
    exact h
  · rw [if_neg h0] at hage
    by_cases hlt : e.metric < 16
    · rw [if_pos hlt] at hage
      by_cases htm : e.timeout - 1 ≤ 0
      · rw [if_pos htm] at hage
        cases Option.some.inj hage
        intro _
        rfl
      · rw [if_neg htm] at hage
        cases Option.some.inj hage
        exact h
    · rw [if_neg hlt] at hage
      cases hg : e.garbage_timer with
      | none =>
        rw [hg] at hage
        cases Option.some.inj hage
        exact h
      | some g =>
        rw [hg] at hage
        have hage2 : (if g - 1 ≤ 0 then (none : Option RoutingTableEntry)
            else some { e with garbage_timer := some (g - 1) }) = some e' := hage
        by_cases hge : g - 1 ≤ 0
        · rw [if_pos hge] at hage2
          cases hage2
        · rw [if_neg hge] at hage2
          cases Option.some.inj hage2
          intro _
          exact h (by rw [hg]; rfl)

theorem age_timerSound (r : Router) (h : tableTimerSound r.routing_table) :
    tableTimerSound r.age_routes.routing_table := by
  intro p hp
  rw [age_routes_table] at hp
  rw [List.mem_filterMap] at hp
  obtain ⟨q, hq, hfa⟩ := hp
  cases hage : ageEntry q.2 with
  | none => rw [hage] at hfa; cases hfa
  | some x =>
    rw [hage] at hfa
    simp only [Option.map_some'] at hfa
    cases hfa
    exact ageEntry_timerSound q.2 x (h q hq) hage

theorem add_direct_timerSound (r : Router) (d mask : String)
    (h : tableTimerSound r.routing_table) :
    tableTimerSound (r.add_direct_connection d mask).routing_table := by
  apply tableTimerSound_insert _ _ _ h
  intro hs
  simp [RoutingTableEntry.make] at hs

theorem simOnRouter_timerSound (sim : NetworkSimulator) (rid : String)
    (f : Router → Router)
    (h : simTimerSound sim)
    (hf : ∀ r : Router, tableTimerSound r.routing_table →
      tableTimerSound (f r).routing_table) :
    simTimerSound (simOnRouter sim rid f) := by
  intro q hq
  obtain ⟨p, hp, hpq⟩ := List.mem_map.mp hq
  by_cases hk : p.1 = rid
  · rw [if_pos hk] at hpq
    subst hpq
    exact hf p.2 (h p hp)
  · rw [if_neg hk] at hpq
    subst hpq
    exact h p hp

theorem add_router_timerSound (sim : NetworkSimulator) (rid : String)
    (nbrs : List String) (h : simTimerSound sim) :
    simTimerSound (sim.add_router ⟨rid, nbrs, []⟩) := by
  intro q hq
  rcases mem_dictInsert sim.routers rid ⟨rid, nbrs, []⟩ q hq with he | hm
  · rw [he]
    intro p hp
    cases hp
  · exact h q hm

theorem deliverNeighbors_timerSound (au : List (String × List (String × Update))) :
    ∀ (ns : List String) (r r' : Router),
      tableTimerSound r.routing_table →
      deliverNeighbors au ns r = some r' →
      tableTimerSound r'.routing_table := by
  intro ns
  induction ns with
  | nil =>
    intro r r' h hd
    cases Option.some.inj hd
    exact h
  | cons nid rest ih =>
    intro r r' h hd
    rw [deliverNeighbors] at hd
    cases hl : dictLookup au nid with
    | none => rw [hl] at hd; cases hd
    | some nupd =>
      rw [hl] at hd
      exact ih _ _ (receive_timerSound _ _ _ h) hd

theorem deliverAll_timerSound (au : List (String × List (String × Update))) :
    ∀ (l l' : List (String × Router)),
      (∀ p ∈ l, tableTimerSound p.2.routing_table) →
      deliverAll au l = some l' →
      ∀ p ∈ l', tableTimerSound p.2.routing_table := by
  intro l
  induction l with
  | nil =>
    intro l' _ hall p hp
    cases Option.some.inj hall
    cases hp
  | cons q rest ih =>
    intro l' hl hall p hp
    obtain ⟨id, rh⟩ := q
    rw [deliverAll_cons] at hall
    cases hd : deliverTo au rh with
    | none => rw [hd] at hall; cases hall
    | some rh' =>
      rw [hd] at hall
      cases hrest : deliverAll au rest with
      | none => rw [hrest] at hall; cases hall
      | some rest' =>
        rw [hrest] at hall
        cases Option.some.inj hall
        rcases List.mem_cons.mp hp with he | hm
        · rw [he]
          exact deliverNeighbors_timerSound au rh.neighbors rh rh'
            (hl (id, rh) (List.mem_cons_self _ _)) hd
        · exact ih rest' (fun p hp => hl p (List.mem_cons_of_mem _ hp)) hrest p hm

theorem round_timerSound (sim sim' : NetworkSimulator) (h : simTimerSound sim)
    (hr : sim.simulate_round = some sim') : simTimerSound sim' := by
  unfold NetworkSimulator.simulate_round at hr
  cases hda : deliverAll (snapshotUpdates sim) sim.routers with
  | none => rw [hda] at hr; cases hr
  | some routers2 =>
    rw [hda] at hr
    cases Option.some.inj hr
    intro q hq
    obtain ⟨p, hp, hpq⟩ := List.mem_map.mp hq
    cases hpq
    exact age_timerSound p.2 (deliverAll_timerSound _ _ _ h hda p hp)

/-- Claim C1 counterexample: the reachable state in which a single
registered router has merged a poisoned update for a previously unknown
destination holds an entry with metric 16 and no garbage timer, so the
claimed "garbage timer set iff metric 16" invariant fails. -/
theorem garbage_timer_iff_counterexample :
    Reachable simPoison ∧
    ∃ rr, dictLookup simPoison.routers "A" = some rr ∧
      ∃ e, dictLookup rr.routing_table "N" = some e ∧
        e.metric = 16 ∧ e.garbage_timer = none := by
  constructor
  · exact Reachable.merge _ "A" "B" [("N", 16, "B")]
      (Reachable.add_router _ "A" [] Reachable.init)
  · exact ⟨⟨"A", [], [("N", ⟨"N", "/24", "B", 16, 3, none⟩)]⟩, rfl,
      ⟨"N", "/24", "B", 16, 3, none⟩, rfl, rfl, rfl⟩

/-- Claim C1 (amended): in every scheduler state reachable through the
public operations, every routing-table entry whose garbage timer is set has
metric 16; the converse direction of the claimed invariant does not hold,
because a merge creating a new entry at metric 16 for an unknown
destination leaves the garbage timer unset. -/
theorem garbage_timer_sound_of_reachable (sim : NetworkSimulator)
    (h : Reachable sim) :
    ∀ p ∈ sim.routers, ∀ q ∈ p.2.routing_table,
      q.2.garbage_timer.isSome → q.2.metric = 16 := by
  have key : simTimerSound sim := by
    induction h with
    | init => intro q hq; cases hq
    | add_router s rid nbrs hs ih => exact add_router_timerSound s rid nbrs ih
    | link s rid nid hs ih =>
      exact simOnRouter_timerSound s rid _ ih (fun r hr => hr)
    | direct s rid dest mask hs ih =>
      exact simOnRouter_timerSound s rid _ ih
        (fun r hr => add_direct_timerSound r dest mask hr)
    | merge s rid frm upd hs ih =>
      exact simOnRouter_timerSound s rid _ ih
        (fun r hr => receive_timerSound r frm upd hr)
    | age s rid hs ih =>
      exact simOnRouter_timerSound s rid _ ih (fun r hr => age_timerSound r hr)
    | round s s' hs hr ih => exact round_timerSound s s' ih hr
  exact key

theorem garbage_timer_sound_witness :
    Reachable simPoison2 ∧
    ∀ p ∈ simPoison2.routers, ∀ q ∈ p.2.routing_table,
      q.2.garbage_timer.isSome → q.2.metric = 16 := by
  have h : Reachable simPoison2 :=
    Reachable.merge _ "A" "B" [("N", 16, "B")]
      (Reachable.merge _ "A" "B" [("N", 16, "B")]
        (Reachable.add_router _ "A" [] Reachable.init))
  exact ⟨h, garbage_timer_sound_of_reachable simPoison2 h⟩

end RIPng
